import Mathlib

/-!
# Verification of the Puffin loopback OAuth callback coordinator

A shallow embedding of `src/src-tauri/src/lib.rs`: the port allocator
(`find_available_port`), the authorization URL builder (the
`Url::parse` / `query_pairs_mut().append_pair` chain), the callback
listener thread body, and the coordinator `start_oauth_flow`.

External library behaviour used by the code is modelled from its
documented semantics:
* the `url` crate's `query_pairs()` iterator is `application/x-www-form-urlencoded`
  parsing (split on `&`, drop empty pieces, split each piece at the first `=`,
  percent-decode with `+` as space);
* `query_pairs_mut().append_pair` appends `&`-separated, form-urlencoded pairs
  to the existing query string;
* Rust's `HashMap` built by `collect` over an iterator keeps, for a repeated
  key, the last value inserted;
* `tiny_http`'s `recv_timeout` yields either a request, `None` on deadline, or
  an I/O error — modelled as an environment event;
* outcomes of OS-level operations (bind, browser launch, channel receive)
  are environment inputs.

Machine strings are Lean `String`s; percent-decoding works at the byte level,
modelled for the ASCII range where the claims live.
-/

set_option autoImplicit false

namespace Puffin

/-! ## Percent-decoding and form-urlencoded query parsing -/

/-- Hex digit value of a character, `none` if not a hex digit
(the decoder leaves invalid percent escapes untouched). -/
def hexVal (c : Char) : Option Nat :=
  let n := c.toNat
  if 48 ≤ n ∧ n ≤ 57 then some (n - 48)
  else if 65 ≤ n ∧ n ≤ 70 then some (n - 55)
  else if 97 ≤ n ∧ n ≤ 102 then some (n - 87)
  else none

/-- First decoding pass of `form_urlencoded`: every `+` becomes a space. -/
def replacePlus (cs : List Char) : List Char :=
  cs.map (fun c => if c = '+' then ' ' else c)

/-- Second decoding pass: `%XY` with two hex digits becomes the byte
`16*X+Y`; anything else is copied verbatim (an invalid escape is emitted
as written; restarting an overlapping escape inside an invalid one is not
modelled — no claim touches malformed escapes). -/
def pctDecode : List Char → List Char
  | [] => []
  | '%' :: a :: b :: rest =>
    match hexVal a, hexVal b with
    | some hi, some lo => Char.ofNat (16 * hi + lo) :: pctDecode rest
    | _, _ => '%' :: a :: b :: pctDecode rest
  | c :: rest => c :: pctDecode rest

/-- Percent-decoding of form-urlencoded text, in the order the `url` crate
applies it: `+` to space first, then percent-unescaping. -/
def percentDecodeList (cs : List Char) : List Char :=
  pctDecode (replacePlus cs)

/-- Split a character list on `&` into pieces (the separators are dropped;
empty pieces are produced and filtered later, as `form_urlencoded` does). -/
def splitAmp : List Char → List (List Char)
  | [] => [[]]
  | c :: rest =>
    if c = '&' then [] :: splitAmp rest
    else
      match splitAmp rest with
      | [] => [[c]]
      | p :: ps => (c :: p) :: ps

/-- Split a query piece at its first `=`: `k=v` gives `(k, v)`, a piece with
no `=` gives `(piece, "")`. -/
def splitEq : List Char → List Char × List Char
  | [] => ([], [])
  | c :: rest =>
    if c = '=' then ([], rest)
    else
      let kv := splitEq rest
      (c :: kv.1, kv.2)

/-- `application/x-www-form-urlencoded` parsing of a query, as the `url`
crate's `query_pairs()` produces it: pieces between `&`, empty pieces skipped,
each piece split at the first `=`, key and value percent-decoded. -/
def parseQueryPairsL (q : List Char) : List (String × String) :=
  ((splitAmp q).filter (fun p => p ≠ [])).map
    (fun p => (String.mk (percentDecodeList (splitEq p).1),
               String.mk (percentDecodeList (splitEq p).2)))

/-- Query parsing on `String`s. -/
def parseQueryPairs (q : String) : List (String × String) :=
  parseQueryPairsL q.data

/-! ## The `HashMap` built by `collect` (lib.rs lines 103–104)

`url.query_pairs().into_owned().collect::<HashMap<_,_>>()` inserts the pairs
in iteration order into a hash map; a repeated key overwrites, so the map
holds the last value.  We model the map as an association list with unique
keys, built by repeated insert. -/

/-- Hash-map insert: replace the value of an existing key, else append. -/
def assocInsert : List (String × String) → String → String → List (String × String)
  | [], k, v => [(k, v)]
  | p :: rest, k, v =>
    if p.1 = k then (k, v) :: rest else p :: assocInsert rest k v

/-- Hash-map lookup (keys are unique, so first match is the entry). -/
def mapGet : List (String × String) → String → Option String
  | [], _ => none
  | p :: rest, k => if p.1 = k then some p.2 else mapGet rest k

/-- `collect::<HashMap<_,_>>()` over a pair iterator. -/
def collectMap (pairs : List (String × String)) : List (String × String) :=
  pairs.foldl (fun m p => assocInsert m p.1 p.2) []

/-- `params.get(k).cloned()` on the collected map. -/
def paramsGet (pairs : List (String × String)) (k : String) : Option String :=
  mapGet (collectMap pairs) k

/-- The last-occurring value for key `k` in a pair sequence: the first match
in the reversed sequence. -/
def lastVal (pairs : List (String × String)) (k : String) : Option String :=
  mapGet pairs.reverse k

/-- Number of occurrences of key `k` in a pair sequence. -/
def countKey (pairs : List (String × String)) (k : String) : Nat :=
  (pairs.filter (fun p => p.1 = k)).length

/-! ## FlowResult data model (lib.rs lines 27–33) -/

/-- `OAuthResult` struct: four independent optional fields. -/
structure OAuthResult where
  code : Option String
  state : Option String
  error : Option String
  redirect_uri : Option String
deriving DecidableEq, Repr

/-- The result built on the request path from a successfully parsed callback
URL (lib.rs lines 101–112): look each key up in the collected params map. -/
def callbackResult (q : String) (redirectUri : String) : OAuthResult :=
  let params := parseQueryPairs q
  { code := paramsGet params "code"
    state := paramsGet params "state"
    error := paramsGet params "error"
    redirect_uri := some redirectUri }

/-! ## Callback listener thread body (lib.rs lines 77–196)

The listener's interaction with the OS is an environment event: either the
`Server::http` bind fails, or it succeeds and `recv_timeout` produces one of
its three outcomes.  On a received request the code reconstructs
`http://127.0.0.1{path}` and calls `Url::parse`; that parse outcome (the
query on success, the error text on failure) is part of the event.  What the
thread does is recorded as a trace of actions: best-effort HTTP responses
and sends on the result channel. -/

/-- Outcome of `Url::parse` on the reconstructed callback URL:
the URL's query string on success, the error text on failure. -/
inductive ParseOutcome where
  | ok (query : String)
  | err (msg : String)
deriving DecidableEq, Repr

/-- Outcome of `server.recv_timeout(timeout)`: `Ok(Some(request))` with the
request's parse outcome and whether writing the HTTP response succeeds,
`Ok(None)` on deadline, or `Err(e)`. -/
inductive RecvOutcome where
  | request (parsed : ParseOutcome) (respondOk : Bool)
  | timedOut
  | ioErr (msg : String)
deriving DecidableEq, Repr

/-- Environment of one listener-thread run: `Server::http` bind failure, or a
successful bind followed by a `recv_timeout` outcome. -/
inductive ListenerEvent where
  | bindFail (msg : String)
  | bound (outcome : RecvOutcome)
deriving DecidableEq, Repr

/-- The two static HTML pages of lib.rs lines 123–168, abstracted to their
theme (the literals are fixed; `success` is the page chosen when
`result.code.is_some()`). -/
inductive HtmlPage where
  | success
  | failure
deriving DecidableEq, Repr

/-- Observable actions of the listener thread, in program order:
a best-effort HTTP response (`let _ = request.respond(..)`, with the
write's success recorded) and a best-effort channel send
(`let _ = tx.send(..)`). -/
inductive ListenerAction where
  | respond (page : HtmlPage) (ok : Bool)
  | publish (r : OAuthResult)
deriving DecidableEq, Repr

/-- The `OAuthResult` computed on the request path (lib.rs lines 101–119):
field lookups from the collected params on parse success, the
`Failed to parse callback URL` failure otherwise. -/
def requestResult (p : ParseOutcome) (redirectUri : String) : OAuthResult :=
  match p with
  | .ok q => callbackResult q redirectUri
  | .err e =>
    { code := none
      state := none
      error := some ("Failed to parse callback URL: " ++ e)
      redirect_uri := some redirectUri }

/-- Page choice of lib.rs line 122: success-themed iff `result.code.is_some()`. -/
def pageOf (r : OAuthResult) : HtmlPage :=
  if r.code.isSome then .success else .failure

/-- The listener thread body (lib.rs lines 77–196) as a trace of actions. -/
def listenerRun (ev : ListenerEvent) (redirectUri : String) : List ListenerAction :=
  match ev with
  | .bindFail e =>
    [.publish
      { code := none
        state := none
        error := some ("Failed to start server: " ++ e)
        redirect_uri := some redirectUri }]
  | .bound (.request p respondOk) =>
    let result := requestResult p redirectUri
    [.respond (pageOf result) respondOk, .publish result]
  | .bound .timedOut =>
    [.publish
      { code := none
        state := none
        error := some "OAuth timeout - no callback received"
        redirect_uri := some redirectUri }]
  | .bound (.ioErr e) =>
    [.publish
      { code := none
        state := none
        error := some ("Server error: " ++ e)
        redirect_uri := some redirectUri }]

/-- The results sent on the channel during a trace. -/
def publishes (as : List ListenerAction) : List OAuthResult :=
  as.filterMap (fun a =>
    match a with
    | .publish r => some r
    | .respond _ _ => none)

/-! ## Form-urlencoded serialization (for `append_pair`) -/

/-- Characters `append_pair` leaves unencoded: ASCII alphanumeric and
`*`, `-`, `.`, `_`. -/
def urlSafeChar (c : Char) : Bool :=
  c.isAlphanum || c = '*' || c = '-' || c = '.' || c = '_'

/-- Uppercase hex digit for a value below 16 (codes 48–57 are the digits,
65–70 the letters A–F). -/
def hexDigitChar (n : Nat) : Char :=
  Char.ofNat (if n < 10 then 48 + n else 55 + n)

/-- UTF-8 bytes of a character. -/
def utf8Bytes (c : Char) : List Nat :=
  let n := c.toNat
  if n < 0x80 then [n]
  else if n < 0x800 then [0xC0 + n / 64, 0x80 + n % 64]
  else if n < 0x10000 then [0xE0 + n / 4096, 0x80 + n / 64 % 64, 0x80 + n % 64]
  else [0xF0 + n / 0x40000, 0x80 + n / 4096 % 64, 0x80 + n / 64 % 64, 0x80 + n % 64]

/-- Form-urlencoding of one character: safe characters pass through, space
becomes `+`, anything else becomes `%XY` per UTF-8 byte. -/
def formUrlEncodeChar (c : Char) : List Char :=
  if urlSafeChar c then [c]
  else if c = ' ' then ['+']
  else ((utf8Bytes c).map (fun b => ['%', hexDigitChar (b / 16), hexDigitChar (b % 16)])).flatten

/-- Form-urlencoding of a string's characters. -/
def formUrlEncodeList (cs : List Char) : List Char :=
  (cs.map formUrlEncodeChar).flatten

/-! ## Authorization URL builder (lib.rs lines 61–70) -/

/-- A parsed absolute URL, reduced to what the builder touches: the part
before the query, and the query string (empty when absent). -/
structure UrlM where
  base : String
  query : List Char
deriving DecidableEq, Repr

/-- `query_pairs_mut().append_pair(k, v)`: append a form-urlencoded pair to
the query, `&`-separated when a query is already present. -/
def appendPair (u : UrlM) (k v : String) : UrlM :=
  { u with
    query :=
      (if u.query = [] then [] else u.query ++ ['&'])
        ++ formUrlEncodeList k.data ++ '=' :: formUrlEncodeList v.data }

/-- The seven `append_pair` calls of lib.rs lines 62–70, in program order. -/
def appendAuthParams (u : UrlM) (client_id redirect_uri scope state : String) : UrlM :=
  appendPair (appendPair (appendPair (appendPair (appendPair (appendPair
    (appendPair u "client_id" client_id)
    "redirect_uri" redirect_uri)
    "response_type" "code")
    "scope" scope)
    "access_type" "offline")
    "prompt" "consent")
    "state" state

/-- Lib.rs line 61: `Url::parse(&auth_url_base).map_err(|e| e.to_string())?`
followed by the `append_pair` chain.  The parse outcome of the base URL is
the environment input. -/
def buildAuthUrl (parsed : Except String UrlM)
    (client_id redirect_uri scope state : String) : Except String UrlM :=
  match parsed with
  | .error e => .error e
  | .ok u => .ok (appendAuthParams u client_id redirect_uri scope state)

/-! ## Port allocator (lib.rs lines 36–44) -/

/-- `find_available_port`: probe ports 49152, 49153, …, 65534 (the loop is
`for port in 49152..65535`, upper bound exclusive) and return the first whose
bind succeeds.  Which binds succeed is the environment input `bindable`. -/
def find_available_port (bindable : Nat → Bool) : Option Nat :=
  (List.range' 49152 (65535 - 49152)).find? bindable

/-! ## Flow coordinator `start_oauth_flow` (lib.rs lines 49–217) -/

/-- Environment of one `start_oauth_flow` invocation: which ports bind,
the parse outcome of the caller's base URL, the browser-launch outcome
(`none` = opened fine, `some e` = `open::that` failed), and what
`rx.recv_timeout` yields (`none` = no result before the 300 s deadline). -/
structure CoordEnv where
  bindable : Nat → Bool
  baseParse : Except String UrlM
  browserErr : Option String
  recvResult : Option OAuthResult

/-- Observable effects of the coordinator, in program order. -/
inductive CoordAction where
  | allocatePort
  | spawnListener (port : Nat)
  | openBrowser (u : UrlM)
  | waitRecv
deriving DecidableEq, Repr

/-- The body of `start_oauth_flow` (lib.rs lines 49–217): returns the
command's `Result` together with the trace of effects.  Port allocation
(line 57) runs first; base-URL parsing (line 61) follows; the listener
thread is spawned (line 77), the browser opened (line 199), and the
coordinator blocks on the channel (line 213). -/
def start_oauth_flow (env : CoordEnv) (client_id scope state : String) :
    Except String OAuthResult × List CoordAction :=
  match find_available_port env.bindable with
  | none => (.error "No available port found", [.allocatePort])
  | some port =>
    let redirect_uri := "http://127.0.0.1:" ++ toString port
    match buildAuthUrl env.baseParse client_id redirect_uri scope state with
    | .error e => (.error e, [.allocatePort])
    | .ok auth_url =>
      match env.browserErr with
      | some e =>
        (.error ("Failed to open browser: " ++ e),
         [.allocatePort, .spawnListener port, .openBrowser auth_url])
      | none =>
        match env.recvResult with
        | some r =>
          (.ok r,
           [.allocatePort, .spawnListener port, .openBrowser auth_url, .waitRecv])
        | none =>
          (.error "OAuth timeout - no response received",
           [.allocatePort, .spawnListener port, .openBrowser auth_url, .waitRecv])

/-! ## Lemmas: the collected `HashMap` keeps the last value of a repeated key -/

theorem mapGet_assocInsert (m : List (String × String)) (a v k : String) :
    mapGet (assocInsert m a v) k = if a = k then some v else mapGet m k := by
  induction m with
  | nil => simp [assocInsert, mapGet]
  | cons p rest ih =>
    simp only [assocInsert]
    by_cases hpa : p.1 = a
    · rw [if_pos hpa]
      by_cases hak : a = k <;> simp [mapGet, hpa, hak]
    · rw [if_neg hpa]
      by_cases hpk : p.1 = k
      · have hak : ¬ a = k := fun h => hpa (h ▸ hpk)
        simp [mapGet, hpk, hak]
      · simp [mapGet, hpk, ih]

theorem mapGet_append (l1 l2 : List (String × String)) (k : String) :
    mapGet (l1 ++ l2) k =
      match mapGet l1 k with
      | some v => some v
      | none => mapGet l2 k := by
  induction l1 with
  | nil => simp [mapGet]
  | cons p rest ih =>
    by_cases hpk : p.1 = k <;> simp [mapGet, hpk, ih]

theorem mapGet_foldl_assocInsert (pairs : List (String × String)) :
    ∀ (m : List (String × String)) (k : String),
      mapGet (pairs.foldl (fun m p => assocInsert m p.1 p.2) m) k =
        match lastVal pairs k with
        | some v => some v
        | none => mapGet m k := by
  induction pairs with
  | nil => intro m k; simp [lastVal, mapGet]
  | cons p rest ih =>
    intro m k
    have hrev : lastVal (p :: rest) k =
        match lastVal rest k with
        | some v => some v
        | none => mapGet [p] k := by
      simp only [lastVal, List.reverse_cons, mapGet_append]
    rw [List.foldl_cons, ih, hrev]
    cases h : lastVal rest k with
    | some v => rfl
    | none =>
      by_cases hpk : p.1 = k <;> simp [mapGet, hpk, mapGet_assocInsert]

/-- The value the collected params map reports for a key is the
last-occurring value of that key in the pair sequence. -/
theorem paramsGet_eq_lastVal (pairs : List (String × String)) (k : String) :
    paramsGet pairs k = lastVal pairs k := by
  rw [paramsGet, collectMap, mapGet_foldl_assocInsert pairs [] k]
  cases h : lastVal pairs k <;> simp [mapGet]

/-! ## Claim theorems -/

/-- C1: for a callback whose reconstructed URL parses, the listener publishes
exactly the params-derived result; when the query carries a `code` the result
carries that code, the `state` value and the redirect URI; otherwise the
result carries no code and the `error` parameter's value. -/
theorem C1_code_classifies_result (q uri : String) (ok : Bool) :
    publishes (listenerRun (.bound (.request (.ok q) ok)) uri) = [callbackResult q uri]
    ∧ (∀ v, paramsGet (parseQueryPairs q) "code" = some v →
        (callbackResult q uri).code = some v
        ∧ (callbackResult q uri).state = paramsGet (parseQueryPairs q) "state"
        ∧ (callbackResult q uri).redirect_uri = some uri)
    ∧ (paramsGet (parseQueryPairs q) "code" = none →
        (callbackResult q uri).code = none
        ∧ (callbackResult q uri).error = paramsGet (parseQueryPairs q) "error"
        ∧ (callbackResult q uri).redirect_uri = some uri) := by
  refine ⟨rfl, ?_, ?_⟩
  · intro v hv
    exact ⟨by simp [callbackResult, hv], rfl, rfl⟩
  · intro hv
    exact ⟨by simp [callbackResult, hv], rfl, rfl⟩

/-- C1 witness: the spec's own example `?code=AUTH123&state=xyz123` yields the
success triple, and `?error=access_denied` yields the failure pair. -/
theorem C1_code_classifies_result_witness :
    (callbackResult "code=AUTH123&state=xyz123" "http://127.0.0.1:49152").code = some "AUTH123"
    ∧ (callbackResult "code=AUTH123&state=xyz123" "http://127.0.0.1:49152").state = some "xyz123"
    ∧ (callbackResult "code=AUTH123&state=xyz123" "http://127.0.0.1:49152").redirect_uri
        = some "http://127.0.0.1:49152"
    ∧ (callbackResult "error=access_denied" "http://127.0.0.1:49152").code = none
    ∧ (callbackResult "error=access_denied" "http://127.0.0.1:49152").error
        = some "access_denied" := by
  have h1 := (C1_code_classifies_result "code=AUTH123&state=xyz123" "http://127.0.0.1:49152"
    true).2.1 "AUTH123" (by decide)
  have h2 := (C1_code_classifies_result "error=access_denied" "http://127.0.0.1:49152"
    true).2.2 (by decide)
  exact ⟨h1.1, h1.2.1.trans (by decide), h1.2.2, h2.1, h2.2.1.trans (by decide)⟩

/-- C2: on every disjoint path of the listener (bind failure, one request
received, deadline with no request, server I/O error) exactly one result is
sent on the channel. -/
theorem C2_exactly_one_publish (ev : ListenerEvent) (uri : String) :
    (publishes (listenerRun ev uri)).length = 1 := by
  cases ev with
  | bindFail e => rfl
  | bound oc =>
    cases oc with
    | request p ok => rfl
    | timedOut => rfl
    | ioErr e => rfl

/-- C7: when a key among `code`, `state`, `error` repeats in the parsed
query, the field extracted into the published result is the last-occurring
value of that key. -/
theorem C7_last_value_wins (q uri k : String)
    (h : 2 ≤ countKey (parseQueryPairs q) k) :
    (k = "code" → (callbackResult q uri).code = lastVal (parseQueryPairs q) k)
    ∧ (k = "state" → (callbackResult q uri).state = lastVal (parseQueryPairs q) k)
    ∧ (k = "error" → (callbackResult q uri).error = lastVal (parseQueryPairs q) k) := by
  refine ⟨?_, ?_, ?_⟩ <;> rintro rfl <;>
    simp [callbackResult, paramsGet_eq_lastVal]

/-- C7 witness: `code=A&code=B&state=s&state=t` carries `code` twice and the
extracted code is the second value `B`. -/
theorem C7_last_value_wins_witness :
    2 ≤ countKey (parseQueryPairs "code=A&code=B&state=s&state=t") "code"
    ∧ (callbackResult "code=A&code=B&state=s&state=t" "u").code = some "B" := by
  have h2 : 2 ≤ countKey (parseQueryPairs "code=A&code=B&state=s&state=t") "code" := by decide
  have h := (C7_last_value_wins "code=A&code=B&state=s&state=t" "u" "code" h2).1 rfl
  exact ⟨h2, h.trans (by decide)⟩

/-- C8 counterexample: the published result for `?code=X&error=Y` carries
both an authorization code and an error value at once, so the outcomes are
not mutually exclusive. -/
theorem C8_counterexample :
    publishes (listenerRun (.bound (.request (.ok "code=X&error=Y") true))
        "http://127.0.0.1:49152")
      = [{ code := some "X", state := none, error := some "Y",
           redirect_uri := some "http://127.0.0.1:49152" }] := by decide

/-- C8 amended: `OAuthResult` is a record of four independent optional fields
rather than a union with mutually exclusive variants (code and error can be
populated simultaneously); the invariant that does hold is that every
published result carries the redirect URI. -/
theorem C8_amended_redirect_always_set (ev : ListenerEvent) (uri : String)
    (r : OAuthResult) (h : r ∈ publishes (listenerRun ev uri)) :
    r.redirect_uri = some uri := by
  cases ev with
  | bindFail e => simp [listenerRun, publishes] at h; simp [h]
  | bound oc =>
    cases oc with
    | request p ok =>
      simp [listenerRun, publishes] at h
      cases p with
      | ok q => simp [h, requestResult, callbackResult]
      | err m => simp [h, requestResult]
    | timedOut => simp [listenerRun, publishes] at h; simp [h]
    | ioErr e => simp [listenerRun, publishes] at h; simp [h]

/-- C8 amended witness: the timeout-path publication carries the redirect URI. -/
theorem C8_amended_redirect_always_set_witness :
    (⟨none, none, some "OAuth timeout - no callback received",
        some "http://127.0.0.1:49152"⟩ : OAuthResult)
      ∈ publishes (listenerRun (.bound .timedOut) "http://127.0.0.1:49152")
    ∧ (⟨none, none, some "OAuth timeout - no callback received",
        some "http://127.0.0.1:49152"⟩ : OAuthResult).redirect_uri
      = some "http://127.0.0.1:49152" :=
  ⟨by decide,
   C8_amended_redirect_always_set (.bound .timedOut) "http://127.0.0.1:49152" _ (by decide)⟩

/-- C9: on the request path the trace is the best-effort HTTP response
followed by the publication, and the published payload is the already-computed
result, identical whether or not the response write succeeded. -/
theorem C9_respond_then_publish (p : ParseOutcome) (uri : String) (ok : Bool) :
    listenerRun (.bound (.request p ok)) uri
      = [.respond (pageOf (requestResult p uri)) ok, .publish (requestResult p uri)]
    ∧ publishes (listenerRun (.bound (.request p false)) uri)
      = publishes (listenerRun (.bound (.request p true)) uri) :=
  ⟨rfl, rfl⟩

/-- C10: a parsed callback with neither `code` nor `error` publishes a result
with no code, no error (no substitute text), the `state` parameter's value if
present, and the redirect URI, after serving the failure-themed page. -/
theorem C10_no_code_no_error (q uri : String) (ok : Bool)
    (hc : paramsGet (parseQueryPairs q) "code" = none)
    (he : paramsGet (parseQueryPairs q) "error" = none) :
    listenerRun (.bound (.request (.ok q) ok)) uri
      = [.respond .failure ok,
         .publish { code := none, state := paramsGet (parseQueryPairs q) "state",
                    error := none, redirect_uri := some uri }] := by
  have hres : requestResult (.ok q) uri =
      { code := none, state := paramsGet (parseQueryPairs q) "state",
        error := none, redirect_uri := some uri } := by
    simp [requestResult, callbackResult, hc, he]
  simp [listenerRun, hres, pageOf]

/-- C10 witness: the query `state=xyz123` has neither `code` nor `error`;
the published result keeps both fields empty and the failure page is served. -/
theorem C10_no_code_no_error_witness :
    listenerRun (.bound (.request (.ok "state=xyz123") true)) "http://127.0.0.1:49152"
      = [.respond .failure true,
         .publish { code := none, state := some "xyz123",
                    error := none, redirect_uri := some "http://127.0.0.1:49152" }] := by
  have h := C10_no_code_no_error "state=xyz123" "http://127.0.0.1:49152" true
    (by decide) (by decide)
  exact h.trans (by decide)

/-- C4 counterexample: when the coordinator's wait deadline elapses it does
not return any FlowResult (no `Timeout` value): it returns the error string
`OAuth timeout - no response received`; and the listener's own deadline path
publishes a result whose `error` field carries a message — the same shape as
every failure, with no `Timeout` discriminator. -/
theorem C4_counterexample :
    ((start_oauth_flow
        { bindable := fun _ => true,
          baseParse := .ok ⟨"https://accounts.example.com/o/oauth2/auth", []⟩,
          browserErr := none, recvResult := none } "cid" "sc" "st").1
      = .error "OAuth timeout - no response received")
    ∧ ((start_oauth_flow
        { bindable := fun _ => true,
          baseParse := .ok ⟨"https://accounts.example.com/o/oauth2/auth", []⟩,
          browserErr := none, recvResult := none } "cid" "sc" "st").1.isOk = false)
    ∧ publishes (listenerRun (.bound .timedOut) "http://127.0.0.1:49152")
      = [{ code := none, state := none,
           error := some "OAuth timeout - no callback received",
           redirect_uri := some "http://127.0.0.1:49152" }] :=
  ⟨rfl, rfl, by decide⟩

/-- C4 amended: on the listener's deadline with no request, the published
result is the error-message-shaped value (code and state empty, `error` set
to `OAuth timeout - no callback received`, redirect URI set) — timeout is
distinguishable from other failures only by that message; when the
coordinator's own wait deadline elapses first, it returns the error string
`OAuth timeout - no response received` to the caller rather than a
FlowResult. -/
theorem C4_amended_timeout_shape (uri : String) (env : CoordEnv)
    (cid sc st : String) (u : UrlM) (p : Nat)
    (h1 : find_available_port env.bindable = some p)
    (h2 : env.baseParse = .ok u)
    (h3 : env.browserErr = none)
    (h4 : env.recvResult = none) :
    listenerRun (.bound .timedOut) uri
      = [.publish { code := none, state := none,
                    error := some "OAuth timeout - no callback received",
                    redirect_uri := some uri }]
    ∧ (start_oauth_flow env cid sc st).1
      = .error "OAuth timeout - no response received" := by
  refine ⟨rfl, ?_⟩
  simp [start_oauth_flow, h1, h2, h3, h4, buildAuthUrl]

/-- C4 amended witness: a run in which every port binds, the base URL parses,
the browser opens, and no result arrives on the channel. -/
theorem C4_amended_timeout_shape_witness :
    listenerRun (.bound .timedOut) "http://127.0.0.1:49152"
      = [.publish { code := none, state := none,
                    error := some "OAuth timeout - no callback received",
                    redirect_uri := some "http://127.0.0.1:49152" }]
    ∧ (start_oauth_flow
        { bindable := fun _ => true,
          baseParse := .ok ⟨"https://accounts.example.com/o/oauth2/auth", []⟩,
          browserErr := none, recvResult := none } "cid" "sc" "st").1
      = .error "OAuth timeout - no response received" :=
  C4_amended_timeout_shape "http://127.0.0.1:49152" _ "cid" "sc" "st"
    ⟨"https://accounts.example.com/o/oauth2/auth", []⟩ 49152 rfl rfl rfl rfl

/-- C5 counterexample: with every port bindable and a base URL that fails to
parse, `start_oauth_flow` returns the parse error — but its trace contains
the port allocation, which the claim says must not happen. -/
theorem C5_counterexample :
    start_oauth_flow
        { bindable := fun _ => true,
          baseParse := .error "relative URL without a base",
          browserErr := none, recvResult := none } "cid" "sc" "st"
      = (.error "relative URL without a base", [.allocatePort]) := rfl

/-- C5 amended: on a malformed base URL the flow returns the parse error to
the caller without spawning the listener and without invoking the browser
launcher; the port allocator, however, has already run (line 57 precedes the
parse on line 61), so its probe is not avoided. -/
theorem C5_amended_malformed_after_port (env : CoordEnv) (cid sc st e : String)
    (p : Nat)
    (h1 : find_available_port env.bindable = some p)
    (h2 : env.baseParse = .error e) :
    start_oauth_flow env cid sc st = (.error e, [.allocatePort]) := by
  simp [start_oauth_flow, h1, h2, buildAuthUrl]

/-- C5 amended witness: `not a url` fails to parse; the flow returns that
error with only the port allocation in its trace. -/
theorem C5_amended_malformed_after_port_witness :
    start_oauth_flow
        { bindable := fun _ => true,
          baseParse := .error "relative URL without a base",
          browserErr := none, recvResult := none } "cid" "sc" "st"
      = (.error "relative URL without a base", [.allocatePort]) :=
  C5_amended_malformed_after_port _ "cid" "sc" "st" "relative URL without a base"
    49152 rfl rfl

/-- C6 counterexample: with no bindable port the flow returns the error
string `No available port found` on the command's error channel — it is not
an `Ok` FlowResult, so no `Failure{error: "no available port"}` result is
returned. -/
theorem C6_counterexample :
    ((start_oauth_flow
        { bindable := fun _ => false,
          baseParse := .ok ⟨"https://accounts.example.com/o/oauth2/auth", []⟩,
          browserErr := none, recvResult := none } "cid" "sc" "st").1
      = .error "No available port found")
    ∧ ((start_oauth_flow
        { bindable := fun _ => false,
          baseParse := .ok ⟨"https://accounts.example.com/o/oauth2/auth", []⟩,
          browserErr := none, recvResult := none } "cid" "sc" "st").1.isOk
      = false) := by
  have hfind : find_available_port (fun _ => false) = none := by
    rw [find_available_port, List.find?_eq_none]
    intro x _
    simp
  exact ⟨by simp [start_oauth_flow, hfind],
         by simp [start_oauth_flow, hfind, Except.isOk, Except.toBool]⟩

/-- C6 amended: when no port in the probed range `[49152, 65535)` binds, the
allocator returns nothing and `start_oauth_flow` stops with the caller-visible
error string `No available port found`, with no listener spawned and no
browser contacted (the trace holds only the allocation attempt). -/
theorem C6_amended_port_exhaustion (env : CoordEnv) (cid sc st : String)
    (h : ∀ q, 49152 ≤ q → q < 65535 → env.bindable q = false) :
    find_available_port env.bindable = none
    ∧ start_oauth_flow env cid sc st
      = (.error "No available port found", [.allocatePort]) := by
  have hfind : find_available_port env.bindable = none := by
    rw [find_available_port, List.find?_eq_none]
    intro x hx
    rw [List.mem_range'_1] at hx
    simp [h x hx.1 (by omega)]
  exact ⟨hfind, by simp [start_oauth_flow, hfind]⟩

/-- C6 amended witness: an environment in which no bind ever succeeds. -/
theorem C6_amended_port_exhaustion_witness :
    find_available_port (fun _ => false) = none
    ∧ start_oauth_flow
        { bindable := fun _ => false,
          baseParse := .ok ⟨"https://accounts.example.com/o/oauth2/auth", []⟩,
          browserErr := none, recvResult := none } "cid" "sc" "st"
      = (.error "No available port found", [.allocatePort]) :=
  C6_amended_port_exhaustion
    { bindable := fun _ => false,
      baseParse := .ok ⟨"https://accounts.example.com/o/oauth2/auth", []⟩,
      browserErr := none, recvResult := none } "cid" "sc" "st"
    (fun _ _ _ => rfl)

/-! ## Lemmas: form-urlencoding round-trips through the query decoder -/

theorem hexVal_hexDigitChar (m : Nat) (h : m < 16) :
    hexVal (hexDigitChar m) = some m := by
  interval_cases m <;> decide

theorem hexDigitChar_not_special (m : Nat) (h : m < 16) :
    hexDigitChar m ≠ '&' ∧ hexDigitChar m ≠ '=' ∧ hexDigitChar m ≠ '+'
    ∧ hexDigitChar m ≠ '%' := by
  interval_cases m <;> decide

theorem urlSafeChar_not_special (c : Char) (h : urlSafeChar c = true) :
    c ≠ '&' ∧ c ≠ '=' ∧ c ≠ '+' ∧ c ≠ '%' ∧ c ≠ ' ' := by
  refine ⟨?_, ?_, ?_, ?_, ?_⟩ <;> rintro rfl <;> exact absurd h (by decide)

theorem pctDecode_cons_ne (c : Char) (hc : c ≠ '%') (l : List Char) :
    pctDecode (c :: l) = c :: pctDecode l := by
  rw [pctDecode.eq_def]
  split <;> simp_all

theorem percentDecodeList_cons_ne (c : Char) (h1 : c ≠ '+') (h2 : c ≠ '%')
    (l : List Char) :
    percentDecodeList (c :: l) = c :: percentDecodeList l := by
  simp only [percentDecodeList, replacePlus, List.map_cons, if_neg h1]
  exact pctDecode_cons_ne c h2 _

theorem percentDecodeList_plus (l : List Char) :
    percentDecodeList ('+' :: l) = ' ' :: percentDecodeList l := by
  simp only [percentDecodeList, replacePlus, List.map_cons, if_pos rfl]
  exact pctDecode_cons_ne ' ' (by decide) _

theorem percentDecodeList_escape (hi lo : Nat) (hhi : hi < 16) (hlo : lo < 16)
    (l : List Char) :
    percentDecodeList ('%' :: hexDigitChar hi :: hexDigitChar lo :: l)
      = Char.ofNat (16 * hi + lo) :: percentDecodeList l := by
  have dhi := hexDigitChar_not_special hi hhi
  have dlo := hexDigitChar_not_special lo hlo
  simp only [percentDecodeList, replacePlus, List.map_cons,
    if_neg (by decide : ¬ ('%' = '+')), if_neg dhi.2.2.1, if_neg dlo.2.2.1]
  simp [pctDecode, hexVal_hexDigitChar hi hhi, hexVal_hexDigitChar lo hlo]

theorem percentDecode_encodeChar (c : Char) (h : c.toNat < 128)
    (rest : List Char) :
    percentDecodeList (formUrlEncodeChar c ++ rest) = c :: percentDecodeList rest := by
  by_cases hs : urlSafeChar c = true
  · obtain ⟨_, _, h3, h4, _⟩ := urlSafeChar_not_special c hs
    simp only [formUrlEncodeChar, if_pos hs, List.cons_append, List.nil_append]
    exact percentDecodeList_cons_ne c h3 h4 rest
  · by_cases hsp : c = ' '
    · subst hsp
      simp only [formUrlEncodeChar, if_neg hs, if_pos rfl, List.cons_append,
        List.nil_append]
      exact percentDecodeList_plus rest
    · have hb : utf8Bytes c = [c.toNat] := by
        simp [utf8Bytes, h]
      simp only [formUrlEncodeChar, if_neg hs, if_neg hsp, hb, List.map_cons,
        List.map_nil, List.flatten_cons, List.flatten_nil, List.append_nil,
        List.cons_append, List.nil_append]
      have hhi : c.toNat / 16 < 16 :=
        Nat.div_lt_of_lt_mul (Nat.lt_trans h (by norm_num))
      have hlo : c.toNat % 16 < 16 := Nat.mod_lt _ (by norm_num)
      rw [percentDecodeList_escape _ _ hhi hlo rest, Nat.div_add_mod,
        Char.ofNat_toNat]

theorem percentDecode_encodeList (cs : List Char)
    (h : ∀ c ∈ cs, c.toNat < 128) (rest : List Char) :
    percentDecodeList (formUrlEncodeList cs ++ rest) = cs ++ percentDecodeList rest := by
  induction cs with
  | nil => simp [formUrlEncodeList]
  | cons c cs ih =>
    have h1 : formUrlEncodeList (c :: cs) = formUrlEncodeChar c ++ formUrlEncodeList cs := by
      simp [formUrlEncodeList]
    rw [h1, List.append_assoc, percentDecode_encodeChar c (h c (List.mem_cons_self c cs)),
      ih (fun d hd => h d (List.mem_cons_of_mem c hd))]
    rfl

theorem percentDecode_roundtrip (cs : List Char) (h : ∀ c ∈ cs, c.toNat < 128) :
    percentDecodeList (formUrlEncodeList cs) = cs := by
  have := percentDecode_encodeList cs h []
  simpa [percentDecodeList, replacePlus, pctDecode] using this

theorem encodeChar_no_amp_eq (c : Char) (h : c.toNat < 128) :
    '&' ∉ formUrlEncodeChar c ∧ '=' ∉ formUrlEncodeChar c := by
  by_cases hs : urlSafeChar c = true
  · obtain ⟨h1, h2, _, _, _⟩ := urlSafeChar_not_special c hs
    simp only [formUrlEncodeChar, if_pos hs]
    exact ⟨by simp [List.mem_singleton]; exact fun hh => h1 hh.symm,
           by simp [List.mem_singleton]; exact fun hh => h2 hh.symm⟩
  · by_cases hsp : c = ' '
    · subst hsp
      simp only [formUrlEncodeChar, if_neg hs, if_pos rfl]
      decide
    · have hb : utf8Bytes c = [c.toNat] := by
        simp [utf8Bytes, h]
      have hhi := hexDigitChar_not_special (c.toNat / 16)
        (Nat.div_lt_of_lt_mul (Nat.lt_trans h (by norm_num)))
      have hlo := hexDigitChar_not_special (c.toNat % 16) (Nat.mod_lt _ (by norm_num))
      simp only [formUrlEncodeChar, if_neg hs, if_neg hsp, hb, List.map_cons,
        List.map_nil, List.flatten_cons, List.flatten_nil, List.append_nil]
      constructor <;> intro hmem
      · rcases List.mem_cons.mp hmem with h1 | hmem
        · exact absurd h1 (by decide)
        rcases List.mem_cons.mp hmem with h2 | hmem
        · exact hhi.1 h2.symm
        rcases List.mem_cons.mp hmem with h3 | hmem
        · exact hlo.1 h3.symm
        · simp at hmem
      · rcases List.mem_cons.mp hmem with h1 | hmem
        · exact absurd h1 (by decide)
        rcases List.mem_cons.mp hmem with h2 | hmem
        · exact hhi.2.1 h2.symm
        rcases List.mem_cons.mp hmem with h3 | hmem
        · exact hlo.2.1 h3.symm
        · simp at hmem

theorem encodeList_no_amp_eq (cs : List Char) (h : ∀ c ∈ cs, c.toNat < 128) :
    '&' ∉ formUrlEncodeList cs ∧ '=' ∉ formUrlEncodeList cs := by
  induction cs with
  | nil => simp [formUrlEncodeList]
  | cons c cs ih =>
    have hc := encodeChar_no_amp_eq c (h c (List.mem_cons_self c cs))
    have hrest := ih (fun d hd => h d (List.mem_cons_of_mem c hd))
    simp only [formUrlEncodeList, List.map_cons, List.flatten_cons] at *
    constructor <;> intro hmem <;> rw [List.mem_append] at hmem
    · rcases hmem with hm | hm
      · exact hc.1 hm
      · exact hrest.1 hm
    · rcases hmem with hm | hm
      · exact hc.2 hm
      · exact hrest.2 hm

theorem splitAmp_cons (c : Char) (l : List Char) :
    splitAmp (c :: l) = if c = '&' then [] :: splitAmp l
      else match splitAmp l with
        | [] => [[c]]
        | p :: ps => (c :: p) :: ps := rfl

theorem splitEq_cons (c : Char) (l : List Char) :
    splitEq (c :: l) = if c = '=' then ([], l)
      else (c :: (splitEq l).1, (splitEq l).2) := rfl

theorem splitAmp_ne_nil (l : List Char) : splitAmp l ≠ [] := by
  cases l with
  | nil => simp [splitAmp]
  | cons c rest =>
    by_cases hc : c = '&'
    · simp [splitAmp, hc]
    · simp only [splitAmp, if_neg hc]
      cases splitAmp rest <;> simp

theorem splitAmp_no_amp (l : List Char) (h : '&' ∉ l) : splitAmp l = [l] := by
  induction l with
  | nil => rfl
  | cons c rest ih =>
    have hc : ¬ c = '&' := fun hh => h (hh ▸ List.mem_cons_self c rest)
    rw [splitAmp, if_neg hc, ih (fun hm => h (List.mem_cons_of_mem c hm))]

theorem splitAmp_append_amp (l1 l2 : List Char) :
    splitAmp (l1 ++ '&' :: l2) = splitAmp l1 ++ splitAmp l2 := by
  induction l1 with
  | nil =>
    rw [List.nil_append, splitAmp_cons, if_pos rfl]
    rfl
  | cons c l1 ih =>
    rw [List.cons_append, splitAmp_cons, splitAmp_cons c l1]
    by_cases hc : c = '&'
    · rw [if_pos hc, if_pos hc, ih, List.cons_append]
    · rw [if_neg hc, if_neg hc, ih]
      cases hs : splitAmp l1 with
      | nil => exact absurd hs (splitAmp_ne_nil l1)
      | cons p ps => rfl

theorem splitEq_append (k v : List Char) (h : '=' ∉ k) :
    splitEq (k ++ '=' :: v) = (k, v) := by
  induction k with
  | nil => simp [splitEq]
  | cons c k ih =>
    have hc : ¬ c = '=' := fun hh => h (hh ▸ List.mem_cons_self c k)
    rw [List.cons_append, splitEq_cons, if_neg hc,
      ih (fun hm => h (List.mem_cons_of_mem c hm))]

/-- Parsing one form-urlencoded `key=value` piece recovers the pair. -/
theorem parse_encoded_piece (k v : String)
    (hk : ∀ c ∈ k.data, c.toNat < 128) (hv : ∀ c ∈ v.data, c.toNat < 128) :
    parseQueryPairsL (formUrlEncodeList k.data ++ '=' :: formUrlEncodeList v.data)
      = [(k, v)] := by
  have hka := encodeList_no_amp_eq k.data hk
  have hva := encodeList_no_amp_eq v.data hv
  have hamp : '&' ∉ formUrlEncodeList k.data ++ '=' :: formUrlEncodeList v.data := by
    intro hm
    rcases List.mem_append.mp hm with hm | hm
    · exact hka.1 hm
    · rcases List.mem_cons.mp hm with hm | hm
      · exact absurd hm (by decide)
      · exact hva.1 hm
  have hne : formUrlEncodeList k.data ++ '=' :: formUrlEncodeList v.data ≠ [] := by
    intro hh
    cases hfk : formUrlEncodeList k.data <;> rw [hfk] at hh <;> simp at hh
  have h1 : (splitEq (formUrlEncodeList k.data ++ '=' :: formUrlEncodeList v.data)).1
      = formUrlEncodeList k.data := by rw [splitEq_append _ _ hka.2]
  have h2 : (splitEq (formUrlEncodeList k.data ++ '=' :: formUrlEncodeList v.data)).2
      = formUrlEncodeList v.data := by rw [splitEq_append _ _ hka.2]
  rw [parseQueryPairsL, splitAmp_no_amp _ hamp, List.filter_cons_of_pos (by simp [hne]),
    List.filter_nil, List.map_cons, List.map_nil, h1, h2,
    percentDecode_roundtrip k.data hk, percentDecode_roundtrip v.data hv]

/-- `append_pair` extends the parsed query pairs by exactly the appended
pair, preserving everything already there. -/
theorem parseQueryPairsL_append_amp (l1 l2 : List Char) :
    parseQueryPairsL (l1 ++ '&' :: l2) = parseQueryPairsL l1 ++ parseQueryPairsL l2 := by
  simp only [parseQueryPairsL, splitAmp_append_amp, List.filter_append, List.map_append]

theorem parse_appendPair (u : UrlM) (k v : String)
    (hk : ∀ c ∈ k.data, c.toNat < 128) (hv : ∀ c ∈ v.data, c.toNat < 128) :
    parseQueryPairsL (appendPair u k v).query = parseQueryPairsL u.query ++ [(k, v)] := by
  show parseQueryPairsL ((if u.query = [] then [] else u.query ++ ['&'])
      ++ formUrlEncodeList k.data ++ '=' :: formUrlEncodeList v.data)
    = parseQueryPairsL u.query ++ [(k, v)]
  by_cases hq : u.query = []
  · rw [if_pos hq, List.nil_append, parse_encoded_piece k v hk hv, hq]
    rfl
  · rw [if_neg hq]
    have hass : (u.query ++ ['&']) ++ formUrlEncodeList k.data
          ++ '=' :: formUrlEncodeList v.data
        = u.query ++ '&' :: (formUrlEncodeList k.data ++ '=' :: formUrlEncodeList v.data) := by
      simp
    rw [hass, parseQueryPairsL_append_amp, parse_encoded_piece k v hk hv]

/-- The seven `append_pair` calls append exactly the seven parameters, in
order, preserving the base's existing query pairs. -/
theorem parse_appendAuthParams (u : UrlM) (cid ru sc st : String)
    (hcid : ∀ c ∈ cid.data, c.toNat < 128) (hru : ∀ c ∈ ru.data, c.toNat < 128)
    (hsc : ∀ c ∈ sc.data, c.toNat < 128) (hst : ∀ c ∈ st.data, c.toNat < 128) :
    parseQueryPairsL (appendAuthParams u cid ru sc st).query
      = parseQueryPairsL u.query
        ++ [("client_id", cid), ("redirect_uri", ru), ("response_type", "code"),
            ("scope", sc), ("access_type", "offline"), ("prompt", "consent"),
            ("state", st)] := by
  rw [appendAuthParams,
    parse_appendPair _ _ _ (by decide) hst,
    parse_appendPair _ _ _ (by decide) (by decide),
    parse_appendPair _ _ _ (by decide) (by decide),
    parse_appendPair _ _ _ (by decide) hsc,
    parse_appendPair _ _ _ (by decide) (by decide),
    parse_appendPair _ _ _ (by decide) hru,
    parse_appendPair _ _ _ (by decide) hcid]
  simp

theorem appendAuthParams_base (u : UrlM) (cid ru sc st : String) :
    (appendAuthParams u cid ru sc st).base = u.base := by
  cases u
  rfl

/-- C3: a base URL that fails to parse propagates its error; on a parsed
base the builder returns the base unchanged except that the seven parameters
`client_id`, `redirect_uri`, `response_type=code`, `scope`,
`access_type=offline`, `prompt=consent`, `state` are appended form-urlencoded
to the query, none omitted even when empty, with all existing query pairs
preserved in place. -/
theorem C3_builder_appends_params (parsed : Except String UrlM)
    (cid ru sc st : String)
    (hcid : ∀ c ∈ cid.data, c.toNat < 128) (hru : ∀ c ∈ ru.data, c.toNat < 128)
    (hsc : ∀ c ∈ sc.data, c.toNat < 128) (hst : ∀ c ∈ st.data, c.toNat < 128) :
    (∀ e, parsed = .error e → buildAuthUrl parsed cid ru sc st = .error e)
    ∧ (∀ u, parsed = .ok u →
        buildAuthUrl parsed cid ru sc st = .ok (appendAuthParams u cid ru sc st)
        ∧ (appendAuthParams u cid ru sc st).base = u.base
        ∧ parseQueryPairsL (appendAuthParams u cid ru sc st).query
          = parseQueryPairsL u.query
            ++ [("client_id", cid), ("redirect_uri", ru), ("response_type", "code"),
                ("scope", sc), ("access_type", "offline"), ("prompt", "consent"),
                ("state", st)]) := by
  constructor
  · intro e he
    rw [he]
    rfl
  · intro u hu
    rw [hu]
    exact ⟨rfl, appendAuthParams_base u cid ru sc st,
      parse_appendAuthParams u cid ru sc st hcid hru hsc hst⟩

/-- C3 witness: the spec's round-trip example on a base already carrying
`foo=bar`, with an empty `scope` showing that empty parameters are still
appended, and a malformed base propagating its parse error. -/
theorem C3_builder_appends_params_witness :
    parseQueryPairsL (appendAuthParams ⟨"https://provider.example/auth", "foo=bar".data⟩
        "abc" "http://127.0.0.1:49152" "" "xyz123").query
      = [("foo", "bar"), ("client_id", "abc"),
         ("redirect_uri", "http://127.0.0.1:49152"), ("response_type", "code"),
         ("scope", ""), ("access_type", "offline"), ("prompt", "consent"),
         ("state", "xyz123")]
    ∧ buildAuthUrl (.error "relative URL without a base")
        "abc" "http://127.0.0.1:49152" "" "xyz123"
      = .error "relative URL without a base" := by
  have h := C3_builder_appends_params
    (.ok ⟨"https://provider.example/auth", "foo=bar".data⟩)
    "abc" "http://127.0.0.1:49152" "" "xyz123"
    (by decide) (by decide) (by decide) (by decide)
  have h2 := C3_builder_appends_params
    (.error "relative URL without a base")
    "abc" "http://127.0.0.1:49152" "" "xyz123"
    (by decide) (by decide) (by decide) (by decide)
  refine ⟨((h.2 _ rfl).2.2).trans ?_, h2.1 _ rfl⟩
  decide

end Puffin
